import Mathlib

/-!
Verification of the observable-clock component of `c_utils`
(`src/observable_clock.hpp`): a square-wave clock with an intrusive
observer registry.  The C structures and functions are shallowly
embedded below; `size_t` arithmetic is modelled as `Nat` reduced
modulo `2 ^ 64`.
-/

namespace ObservableClock

/-- Width of `size_t` on the modelled target: arithmetic on `time`
wraps modulo this constant (`clk->time += delta_time`). -/
def USIZE : Nat := 2 ^ 64

/-- Embedding of `struct ObserverNode`.  The node's address (its C
identity) is modelled by `id`; `callback` and `data` record whether the
corresponding pointers are non-null (notification only looks at
non-nullness before invoking). -/
structure ObserverNode where
  id : Nat
  callback : Bool
  data : Bool
deriving DecidableEq, Repr

/-- Embedding of `struct Clock`: signal level, period, accumulated
time inside the current period, and the observer list (head first, as
the intrusive linked list). -/
structure Clock where
  signal : Bool
  period : Nat
  time : Nat
  observers : List ObserverNode
deriving DecidableEq, Repr

/-- `clock_init`: period as given, `time = 0`, `signal = true`,
empty observer list. -/
def clock_init (period : Nat) : Clock :=
  { signal := true, period := period, time := 0, observers := [] }

/-- `clock_add_observer`: head insertion (`observer->next = clk->observers;
clk->observers = observer`).  Null-pointer guards do not arise in the
embedding: both arguments are values. -/
def clock_add_observer (clk : Clock) (observer : ObserverNode) : Clock :=
  { clk with observers := observer :: clk.observers }

/-- The unlink loop of `clock_remove_observer`: remove the first node
whose address (`id`) matches, leave the rest untouched. -/
def removeFirst (observer : ObserverNode) : List ObserverNode → List ObserverNode
  | [] => []
  | x :: xs => if x.id = observer.id then xs else x :: removeFirst observer xs

/-- `clock_remove_observer`: scan the list and unlink the first match;
no-op when the handle is absent. -/
def clock_remove_observer (clk : Clock) (observer : ObserverNode) : Clock :=
  { clk with observers := removeFirst observer clk.observers }

/-- `clock_notify_listeners`: traverse the observer list front to back
and invoke every node with non-null `callback` and `data`.  The
embedding returns the list of invoked node identities in invocation
order. -/
def clock_notify_listeners (clk : Clock) : List Nat :=
  (clk.observers.filter (fun o => o.callback && o.data)).map (fun o => o.id)

/-- `clock_tick`: no-op when `period == 0`; otherwise accumulate
`delta` into `time` (wrapping `size_t` addition), recompute
`signal = (time % period) < (period / 2)`, and on `time ≥ period`
reset `time` to 0 and call `clock_notify_listeners` once.  The second
component counts how many times `clock_notify_listeners` was invoked
during the call (0 or 1). -/
def clock_tick (clk : Clock) (delta : Nat) : Clock × Nat :=
  if clk.period = 0 then (clk, 0)
  else
    let t := (clk.time + delta) % USIZE
    let s := decide ((t % clk.period) < (clk.period / 2))
    if clk.period ≤ t then
      ({ clk with time := 0, signal := s }, 1)
    else
      ({ clk with time := t, signal := s }, 0)

/-- Run a sequence of `clock_tick` calls; returns the final clock and
the per-tick notification counts. -/
def run_ticks (clk : Clock) : List Nat → Clock × List Nat
  | [] => (clk, [])
  | d :: ds =>
    let r := clock_tick clk d
    let q := run_ticks r.1 ds
    (q.1, r.2 :: q.2)

/-- Trace of a sequence of ticks: for each tick, the clock state right
after it together with that tick's notification count. -/
def run_trace (clk : Clock) : List Nat → List (Clock × Nat)
  | [] => []
  | d :: ds =>
    let r := clock_tick clk d
    r :: run_trace r.1 ds

/-! ## Helper lemmas about the embedded operations -/

/-- A tick that stays strictly below the period: `time` accumulates and
no notification fires. -/
lemma clock_tick_eq_of_lt (clk : Clock) (d : Nat) (hp : 0 < clk.period)
    (hw : clk.time + d < USIZE) (hlt : clk.time + d < clk.period) :
    clock_tick clk d =
      ({ clk with time := clk.time + d,
                  signal := decide ((clk.time + d) % clk.period < clk.period / 2) }, 0) := by
  have hp' : ¬ clk.period = 0 := by omega
  simp only [clock_tick, hp', if_false, Nat.mod_eq_of_lt hw]
  rw [if_neg (by omega)]

/-- A tick that reaches or passes the period (without wrapping the
`size_t` addition): `time` resets to 0 and one notification fires. -/
lemma clock_tick_eq_of_ge (clk : Clock) (d : Nat) (hp : 0 < clk.period)
    (hw : clk.time + d < USIZE) (hge : clk.period ≤ clk.time + d) :
    clock_tick clk d =
      ({ clk with time := 0,
                  signal := decide ((clk.time + d) % clk.period < clk.period / 2) }, 1) := by
  have hp' : ¬ clk.period = 0 := by omega
  simp only [clock_tick, hp', if_false, Nat.mod_eq_of_lt hw]
  rw [if_pos hge]

/-- A prefix of a list of naturals sums to at most the whole list. -/
lemma sum_take_le (l : List Nat) (n : Nat) : (l.take n).sum ≤ l.sum := by
  have h := List.sum_take_add_sum_drop l n
  omega

/-- Ticks of a zero-sum delta list never roll over: the time component
is left alone and every per-tick notification count is 0. -/
lemma run_ticks_zeros (p t : Nat) (obs : List ObserverNode)
    (hp : 0 < p) (hw : t < USIZE) (ht : t < p) :
    ∀ (ds : List Nat) (s : Bool), ds.sum = 0 →
      (run_ticks ⟨s, p, t, obs⟩ ds).2 = List.replicate ds.length 0 := by
  intro ds
  induction ds with
  | nil => intro s _; rfl
  | cons d rest ih =>
    intro s hzero
    have hd : d = 0 := by simp [List.sum_cons] at hzero; omega
    have hr : rest.sum = 0 := by simp [List.sum_cons] at hzero; omega
    subst hd
    have htick := clock_tick_eq_of_lt ⟨s, p, t, obs⟩ 0 hp (by simpa using hw) (by simpa using ht)
    simp only [run_ticks, htick, List.length_cons, List.replicate_succ]
    exact congrArg (0 :: ·) (ih _ hr)

/-- Removing a handle whose identity is absent from the list is a
no-op. -/
lemma removeFirst_not_mem (obs : ObserverNode) :
    ∀ (l : List ObserverNode), obs.id ∉ l.map (fun o => o.id) → removeFirst obs l = l := by
  intro l
  induction l with
  | nil => intro _; rfl
  | cons x xs ih =>
    intro h
    simp only [List.map_cons, List.mem_cons, not_or] at h
    simp only [removeFirst]
    rw [if_neg (fun hx : x.id = obs.id => h.1 hx.symm)]
    exact congrArg (x :: ·) (ih h.2)

/-- When a handle's identity occurs at most once, removing it twice is
the same as removing it once. -/
lemma removeFirst_idem (obs : ObserverNode) :
    ∀ (l : List ObserverNode), (l.map (fun o => o.id)).count obs.id ≤ 1 →
      removeFirst obs (removeFirst obs l) = removeFirst obs l := by
  intro l
  induction l with
  | nil => intro _; rfl
  | cons x xs ih =>
    intro h
    by_cases hx : x.id = obs.id
    · simp only [removeFirst, if_pos hx]
      apply removeFirst_not_mem
      have hcount : (xs.map (fun o => o.id)).count obs.id = 0 := by
        rw [List.map_cons, hx, List.count_cons_self] at h
        omega
      exact (List.count_eq_zero).mp hcount
    · have hxs : (xs.map (fun o => o.id)).count obs.id ≤ 1 := by
        rw [List.map_cons, List.count_cons_of_ne (fun hh => hx hh.symm)] at h
        exact h
      simp only [removeFirst, if_neg hx]
      exact congrArg (x :: ·) (ih hxs)

/-- `getD` on a list of zeros is zero at every index. -/
lemma getD_replicate_zero (n j : Nat) : (List.replicate n (0 : Nat)).getD j 0 = 0 := by
  induction n generalizing j with
  | zero => rfl
  | succ n ih =>
    cases j with
    | zero => simp [List.replicate_succ]
    | succ j => simp [List.replicate_succ, ih j]

/-- The sum of a list of zeros is zero. -/
lemma sum_replicate_zero (n : Nat) : (List.replicate n (0 : Nat)).sum = 0 := by
  induction n with
  | zero => rfl
  | succ n ih => simp [List.replicate_succ, ih]

/-- Core run lemma: starting inside a period (`t < p`) with deltas
summing exactly to the period boundary, exactly one tick notifies,
namely the first one whose cumulative sum reaches `p`. -/
lemma run_ticks_exact_aux (p : Nat) (hp : 0 < p) (hpw : p < USIZE) :
    ∀ (ds : List Nat) (t : Nat) (s : Bool) (obs : List ObserverNode),
      t < p → t + ds.sum = p →
      ((run_ticks ⟨s, p, t, obs⟩ ds).2).sum = 1 ∧
      ∀ i, i < ds.length →
        (((run_ticks ⟨s, p, t, obs⟩ ds).2).getD i 0 = 1 ↔
          (p ≤ t + (ds.take (i + 1)).sum ∧ t + (ds.take i).sum < p)) := by
  intro ds
  induction ds with
  | nil =>
    intro t s obs ht hsum
    rw [List.sum_nil] at hsum
    omega
  | cons d rest ih =>
    intro t s obs ht hsum
    rw [List.sum_cons] at hsum
    have hd : t + d ≤ p := by omega
    have hw : t + d < USIZE := lt_of_le_of_lt hd hpw
    by_cases hge : p ≤ t + d
    · -- rollover on this tick; every remaining delta is zero
      have hrest : rest.sum = 0 := by omega
      have htick := clock_tick_eq_of_ge ⟨s, p, t, obs⟩ d hp hw hge
      have hz := run_ticks_zeros p 0 obs hp (lt_trans hp hpw) hp rest
        (decide ((t + d) % p < p / 2)) hrest
      simp only [run_ticks, htick, hz]
      refine ⟨by simp [sum_replicate_zero], ?_⟩
      intro i hi
      match i with
      | 0 =>
        simp only [List.getD_cons_zero, List.take_succ_cons, List.take_zero,
          List.sum_cons, List.sum_nil]
        exact iff_of_true trivial (by omega)
      | Nat.succ j =>
        have h1 : (rest.take j).sum = 0 := by
          have := sum_take_le rest j
          omega
        have h2 : (rest.take (j + 1)).sum = 0 := by
          have := sum_take_le rest (j + 1)
          omega
        simp only [List.getD_cons_succ, getD_replicate_zero, List.take_succ_cons,
          List.sum_cons, h1, h2]
        omega
    · have hlt : t + d < p := by omega
      have htick := clock_tick_eq_of_lt ⟨s, p, t, obs⟩ d hp hw hlt
      have hih := ih (t + d) (decide ((t + d) % p < p / 2)) obs hlt (by omega)
      simp only [run_ticks, htick]
      refine ⟨by simp [hih.1], ?_⟩
      intro i hi
      match i with
      | 0 =>
        simp only [List.getD_cons_zero, List.take_succ_cons, List.take_zero,
          List.sum_cons, List.sum_nil]
        omega
      | Nat.succ j =>
        have hj := hih.2 j (by simpa using hi)
        simp only [List.getD_cons_succ, List.take_succ_cons, List.sum_cons]
        rw [hj]
        omega

/-! ## Claim theorems -/

/-- C1, counterexample: in the spec's concrete scenario (`period = 100`,
four ticks of 25), the per-tick signal sequence is NOT
HIGH, HIGH, LOW, LOW as the spec claims. -/
theorem clock_scenario_25x4_spec_signals_false :
    ¬ (((run_trace (clock_init 100) [25, 25, 25, 25]).map (fun r => r.1.signal))
        = [true, true, false, false]) := by decide

/-- C1, amended: with `period = 100` and four ticks of 25, the signal
after each tick is HIGH, LOW, LOW, HIGH (25 < 50; 50 < 50 and 75 < 50
fail; 100 mod 100 = 0 < 50); the 4th tick resets the phase to 0 and it
is the only tick that notifies (exactly one notification overall). -/
theorem clock_scenario_25x4 :
    ((run_trace (clock_init 100) [25, 25, 25, 25]).map (fun r => r.1.signal))
      = [true, false, false, true] ∧
    (run_ticks (clock_init 100) [25, 25, 25, 25]).2 = [0, 0, 0, 1] ∧
    ((run_ticks (clock_init 100) [25, 25, 25, 25]).2).sum = 1 ∧
    (run_ticks (clock_init 100) [25, 25, 25, 25]).1.time = 0 := by decide

/-- C2, counterexample: the state predicate
`signal = ((phase mod p) < p / 2)` fails after a rollover tick: with
`period = 2` a single `tick(3)` stores `signal = false` (from
`3 mod 2 = 1 ≥ 1`) but resets `phase` to 0, and `0 mod 2 = 0 < 1`
would demand `signal = true`. -/
theorem clock_signal_phase_predicate_false :
    ¬ ((clock_tick (clock_init 2) 3).1.signal =
        decide ((clock_tick (clock_init 2) 3).1.time % 2 < 2 / 2)) := by decide

/-- C2, amended: for `period > 0`, after a tick that does not roll
over, `signal = ((phase mod p) < p / 2)` holds of the stored phase;
after a rollover tick the phase is reset to 0 while the signal keeps
the value computed from the pre-reset accumulated time
`(phase + delta) mod 2^64`, so the predicate is stated of that value
instead of the stored 0. -/
theorem clock_tick_signal_characterization (clk : Clock) (delta : Nat)
    (hp : 0 < clk.period) :
    ((clock_tick clk delta).2 = 0 →
      (clock_tick clk delta).1.signal =
        decide ((clock_tick clk delta).1.time % clk.period < clk.period / 2)) ∧
    ((clock_tick clk delta).2 ≠ 0 →
      (clock_tick clk delta).1.time = 0 ∧
      (clock_tick clk delta).1.signal =
        decide ((clk.time + delta) % USIZE % clk.period < clk.period / 2)) := by
  have hp' : ¬ clk.period = 0 := by omega
  simp only [clock_tick, hp', if_false]
  by_cases hge : clk.period ≤ (clk.time + delta) % USIZE
  · rw [if_pos hge]
    exact ⟨fun h => absurd h one_ne_zero, fun _ => ⟨rfl, rfl⟩⟩
  · rw [if_neg hge]
    exact ⟨fun _ => rfl, fun h => absurd rfl h⟩

/-- C2, witness for the amended theorem at `period = 2`, `delta = 3`. -/
theorem clock_tick_signal_characterization_witness :
    ((clock_tick (clock_init 2) 3).2 = 0 →
      (clock_tick (clock_init 2) 3).1.signal =
        decide ((clock_tick (clock_init 2) 3).1.time % (clock_init 2).period
          < (clock_init 2).period / 2)) ∧
    ((clock_tick (clock_init 2) 3).2 ≠ 0 →
      (clock_tick (clock_init 2) 3).1.time = 0 ∧
      (clock_tick (clock_init 2) 3).1.signal =
        decide (((clock_init 2).time + 3) % USIZE % (clock_init 2).period
          < (clock_init 2).period / 2)) :=
  clock_tick_signal_characterization (clock_init 2) 3 (by decide)

/-- C3: a single `clock_tick` call invokes `clock_notify_listeners` at
most once, whatever the state and delta; and the concrete large-delta
scenario `period = 100`, `tick(250)` fires exactly one notification,
resets the phase to 0 and leaves the signal LOW. -/
theorem clock_tick_at_most_one_notification :
    (∀ (clk : Clock) (delta : Nat), (clock_tick clk delta).2 ≤ 1) ∧
    (clock_tick (clock_init 100) 250).2 = 1 ∧
    (clock_tick (clock_init 100) 250).1.time = 0 ∧
    (clock_tick (clock_init 100) 250).1.signal = false := by
  refine ⟨?_, by decide, by decide, by decide⟩
  intro clk delta
  by_cases h : clk.period = 0
  · simp [clock_tick, h]
  · simp only [clock_tick, h, if_false]
    by_cases hge : clk.period ≤ (clk.time + delta) % USIZE
    · rw [if_pos hge]
    · rw [if_neg hge]
      exact Nat.zero_le 1

/-- C5: for a positive period, after any tick the stored phase is
strictly below the period, and a tick that notifies (rolls over) has
reset the phase to exactly 0. -/
theorem clock_tick_phase_bounded (clk : Clock) (delta : Nat) (hp : 0 < clk.period) :
    (clock_tick clk delta).1.time < clk.period ∧
    ((clock_tick clk delta).2 ≠ 0 → (clock_tick clk delta).1.time = 0) := by
  have hp' : ¬ clk.period = 0 := by omega
  simp only [clock_tick, hp', if_false]
  by_cases hge : clk.period ≤ (clk.time + delta) % USIZE
  · rw [if_pos hge]
    exact ⟨hp, fun _ => rfl⟩
  · rw [if_neg hge]
    refine ⟨?_, fun h => absurd rfl h⟩
    show (clk.time + delta) % USIZE < clk.period
    omega

/-- C5, witness at `period = 10`, `delta = 25`. -/
theorem clock_tick_phase_bounded_witness :
    (clock_tick (clock_init 10) 25).1.time < (clock_init 10).period ∧
    ((clock_tick (clock_init 10) 25).2 ≠ 0 → (clock_tick (clock_init 10) 25).1.time = 0) :=
  clock_tick_phase_bounded (clock_init 10) 25 (by decide)

/-- C6: immediately after `clock_init p` (any positive period) the
signal is HIGH, the phase is 0 and the observer registry is empty. -/
theorem clock_init_state (p : Nat) (_hp : 0 < p) :
    (clock_init p).signal = true ∧ (clock_init p).time = 0 ∧
    (clock_init p).observers = [] :=
  ⟨rfl, rfl, rfl⟩

/-- C6, witness at `period = 7`. -/
theorem clock_init_state_witness :
    0 < 7 ∧ ((clock_init 7).signal = true ∧ (clock_init 7).time = 0 ∧
      (clock_init 7).observers = []) :=
  ⟨by decide, clock_init_state 7 (by decide)⟩

/-- C4: on a freshly initialized clock with period `p > 0` (a
representable `size_t` value), any tick sequence whose deltas sum to
exactly `p` fires exactly one notification in total, and the per-tick
notification count is 1 exactly on the tick whose cumulative delta sum
reaches `p` while all earlier ticks stayed strictly below `p`. -/
theorem clock_period_sum_single_notification (p : Nat) (hp : 0 < p)
    (hpw : p < USIZE) (ds : List Nat) (hsum : ds.sum = p) :
    ((run_ticks (clock_init p) ds).2).sum = 1 ∧
    ∀ i, i < ds.length →
      (((run_ticks (clock_init p) ds).2).getD i 0 = 1 ↔
        (p ≤ (ds.take (i + 1)).sum ∧ (ds.take i).sum < p)) := by
  have h := run_ticks_exact_aux p hp hpw ds 0 true [] hp (by omega)
  simp only [Nat.zero_add] at h
  exact h

/-- C4, witness at `p = 5`, deltas `[2, 3]`. -/
theorem clock_period_sum_single_notification_witness :
    (((run_ticks (clock_init 5) [2, 3]).2).sum = 1 ∧
    ∀ i, i < [2, 3].length →
      (((run_ticks (clock_init 5) [2, 3]).2).getD i 0 = 1 ↔
        (5 ≤ ([2, 3].take (i + 1)).sum ∧ ([2, 3].take i).sum < 5))) :=
  clock_period_sum_single_notification 5 (by decide) (by decide) [2, 3] (by decide)

/-- C7: with `period = 0` every tick sequence is a complete no-op: the
final clock equals the initial one (phase, signal and registry all
unchanged) and every per-tick notification count is 0. -/
theorem clock_tick_zero_period_noop (clk : Clock) (hp : clk.period = 0)
    (ds : List Nat) :
    run_ticks clk ds = (clk, List.replicate ds.length 0) := by
  induction ds with
  | nil => rfl
  | cons d rest ih =>
    have htick : clock_tick clk d = (clk, 0) := by simp [clock_tick, hp]
    simp only [run_ticks, htick, List.length_cons, List.replicate_succ]
    rw [ih]

/-- C7, witness: a zero-period clock with nonzero phase, signal LOW and
one registered observer is untouched by the ticks `[1, 2, 300]`. -/
theorem clock_tick_zero_period_noop_witness :
    run_ticks ⟨false, 0, 5, [⟨0, true, true⟩]⟩ [1, 2, 300]
      = (⟨false, 0, 5, [⟨0, true, true⟩]⟩, List.replicate [1, 2, 300].length 0) :=
  clock_tick_zero_period_noop ⟨false, 0, 5, [⟨0, true, true⟩]⟩ (by decide) [1, 2, 300]

/-- C8: adding distinct observers A then B (both with callback and data
set) and notifying invokes B first, then A, each exactly once; removing
B before notifying invokes only A, exactly once. -/
theorem clock_notify_two_observers (A B : ObserverNode) (p : Nat)
    (hA1 : A.callback = true) (hA2 : A.data = true)
    (hB1 : B.callback = true) (hB2 : B.data = true)
    (hne : A.id ≠ B.id) :
    clock_notify_listeners (clock_add_observer (clock_add_observer (clock_init p) A) B)
      = [B.id, A.id] ∧
    (clock_notify_listeners
      (clock_add_observer (clock_add_observer (clock_init p) A) B)).count A.id = 1 ∧
    (clock_notify_listeners
      (clock_add_observer (clock_add_observer (clock_init p) A) B)).count B.id = 1 ∧
    clock_notify_listeners
      (clock_remove_observer (clock_add_observer (clock_add_observer (clock_init p) A) B) B)
      = [A.id] := by
  have h1 : clock_notify_listeners
      (clock_add_observer (clock_add_observer (clock_init p) A) B) = [B.id, A.id] := by
    simp [clock_notify_listeners, clock_add_observer, clock_init, hA1, hA2, hB1, hB2]
  have h2 : clock_notify_listeners
      (clock_remove_observer (clock_add_observer (clock_add_observer (clock_init p) A) B) B)
      = [A.id] := by
    simp [clock_notify_listeners, clock_remove_observer, clock_add_observer, clock_init,
      removeFirst, hA1, hA2]
  refine ⟨h1, ?_, ?_, h2⟩
  · rw [h1]
    simp [List.count_cons, Ne.symm hne]
  · rw [h1]
    simp [List.count_cons, hne]

/-- C8, witness: observers with identities 0 and 1 on a period-100
clock. -/
theorem clock_notify_two_observers_witness :
    clock_notify_listeners (clock_add_observer
      (clock_add_observer (clock_init 100) ⟨0, true, true⟩) ⟨1, true, true⟩)
      = [(⟨1, true, true⟩ : ObserverNode).id, (⟨0, true, true⟩ : ObserverNode).id] ∧
    (clock_notify_listeners (clock_add_observer
      (clock_add_observer (clock_init 100) ⟨0, true, true⟩) ⟨1, true, true⟩)).count
        (⟨0, true, true⟩ : ObserverNode).id = 1 ∧
    (clock_notify_listeners (clock_add_observer
      (clock_add_observer (clock_init 100) ⟨0, true, true⟩) ⟨1, true, true⟩)).count
        (⟨1, true, true⟩ : ObserverNode).id = 1 ∧
    clock_notify_listeners (clock_remove_observer (clock_add_observer
      (clock_add_observer (clock_init 100) ⟨0, true, true⟩) ⟨1, true, true⟩) ⟨1, true, true⟩)
      = [(⟨0, true, true⟩ : ObserverNode).id] :=
  clock_notify_two_observers ⟨0, true, true⟩ ⟨1, true, true⟩ 100
    rfl rfl rfl rfl (by decide)

/-- C9: removing a handle whose identity is not in the registry leaves
the clock (registry contents and order included) unchanged, and — for
any registry in which the handle occurs at most once, as every registry
built by distinct-handle additions does — removing it twice equals
removing it once. -/
theorem clock_remove_observer_idem (clk : Clock) (obs : ObserverNode) :
    (obs.id ∉ clk.observers.map (fun o => o.id) → clock_remove_observer clk obs = clk) ∧
    ((clk.observers.map (fun o => o.id)).count obs.id ≤ 1 →
      clock_remove_observer (clock_remove_observer clk obs) obs
        = clock_remove_observer clk obs) := by
  constructor
  · intro h
    simp [clock_remove_observer, removeFirst_not_mem obs clk.observers h]
  · intro h
    simp [clock_remove_observer, removeFirst_idem obs clk.observers h]

/-- C9, witness: removing the absent handle 1 from a registry holding
only handle 0 is a no-op, twice as much as once. -/
theorem clock_remove_observer_idem_witness :
    clock_remove_observer ⟨true, 100, 0, [⟨0, true, true⟩]⟩ ⟨1, true, true⟩
      = ⟨true, 100, 0, [⟨0, true, true⟩]⟩ ∧
    clock_remove_observer
      (clock_remove_observer ⟨true, 100, 0, [⟨0, true, true⟩]⟩ ⟨1, true, true⟩)
      ⟨1, true, true⟩
      = clock_remove_observer ⟨true, 100, 0, [⟨0, true, true⟩]⟩ ⟨1, true, true⟩ :=
  ⟨(clock_remove_observer_idem ⟨true, 100, 0, [⟨0, true, true⟩]⟩ ⟨1, true, true⟩).1
      (by decide),
   (clock_remove_observer_idem ⟨true, 100, 0, [⟨0, true, true⟩]⟩ ⟨1, true, true⟩).2
      (by decide)⟩

/-- C10: `time += delta` is wrapping `size_t` arithmetic, so a period
boundary can be lost to overflow: with `period = 2^64 - 1` and stored
phase `2^64 - 2` (reached by one tick from init), a tick of 3 has true
sum `2^64 + 1 ≥ period`, but the wrapped sum is 1 < period, so the tick
fires no notification and leaves the phase at 1 instead of resetting
it. -/
theorem clock_tick_overflow_loses_boundary :
    ((clock_tick (clock_init (2 ^ 64 - 1)) (2 ^ 64 - 2)).1.time = 2 ^ 64 - 2) ∧
    (2 ^ 64 - 1 ≤ (clock_tick (clock_init (2 ^ 64 - 1)) (2 ^ 64 - 2)).1.time + 3) ∧
    (((clock_tick (clock_init (2 ^ 64 - 1)) (2 ^ 64 - 2)).1.time + 3) % USIZE
      < 2 ^ 64 - 1) ∧
    ((clock_tick ((clock_tick (clock_init (2 ^ 64 - 1)) (2 ^ 64 - 2)).1) 3).2 = 0) ∧
    ((clock_tick ((clock_tick (clock_init (2 ^ 64 - 1)) (2 ^ 64 - 2)).1) 3).1.time = 1) := by
  decide

end ObservableClock
